import Mathlib

/-!
Verification of the `ctx-csrf` middleware configuration layer and the parts
of the token protocol its specification describes.

The file `src/options.go` is embedded directly: the `csrf` configuration
record, the ten functional options (nine exported plus the private
`setStore`), and `parseOptions`.  Go's `goji.Handler` and `store` types are
opaque interface values here, so they are type parameters `H` and `S`; a Go
`nil` interface field is `Option`-valued with `none` for `nil`, and a Go
`error` result is `Option String` with `none` for `nil`.

The Masking Engine, Request Validator and Middleware Core of the
specification are not part of `src/`; the definitions that embed them are
modelled from the specification and carry a doc comment saying so.
-/

namespace CtxCsrf

/-- A Go `error` result: `none` is the `nil` error. -/
abbrev GoError := Option String

/-- The settings record `cs.opts`: the nine configuration fields that the
exported options of `options.go` assign.  `ErrorHandler` is a nil-able Go
interface field, hence `Option H`. -/
structure CsrfOptions (H : Type) where
  MaxAge : Int
  Domain : String
  Path : String
  Secure : Bool
  HttpOnly : Bool
  ErrorHandler : Option H
  RequestHeader : String
  FieldName : String
  CookieName : String
  deriving DecidableEq

/-- The `csrf` value built by `parseOptions`: the wrapped handler `h`, the
(nil-able) store `st`, and the settings record `opts`. -/
structure Csrf (H S : Type) where
  h : H
  st : Option S
  opts : CsrfOptions H
  deriving DecidableEq

/-- The functional options of `options.go`, one constructor per option
function (the closure each Go function returns is determined by the
captured argument, so an option value is the constructor plus that
argument). -/
inductive Opt (H S : Type) where
  | MaxAge (age : Int)
  | Domain (domain : String)
  | Path (p : String)
  | Secure (s : Bool)
  | HttpOnly (hOnly : Bool)
  | ErrorHandler (h : H)
  | RequestHeader (header : String)
  | FieldName (name : String)
  | CookieName (name : String)
  | setStore (s : S)
  deriving DecidableEq

variable {H S : Type}

/-- Running one option closure on a `csrf` value: each assigns its field and
returns the `nil` error, exactly as in `options.go`. -/
def applyOptionE (o : Opt H S) (cs : Csrf H S) : Csrf H S × GoError :=
  match o with
  | .MaxAge age => ({ cs with opts := { cs.opts with MaxAge := age } }, none)
  | .Domain d => ({ cs with opts := { cs.opts with Domain := d } }, none)
  | .Path p => ({ cs with opts := { cs.opts with Path := p } }, none)
  | .Secure s => ({ cs with opts := { cs.opts with Secure := s } }, none)
  | .HttpOnly hb => ({ cs with opts := { cs.opts with HttpOnly := hb } }, none)
  | .ErrorHandler eh => ({ cs with opts := { cs.opts with ErrorHandler := some eh } }, none)
  | .RequestHeader hd => ({ cs with opts := { cs.opts with RequestHeader := hd } }, none)
  | .FieldName n => ({ cs with opts := { cs.opts with FieldName := n } }, none)
  | .CookieName n => ({ cs with opts := { cs.opts with CookieName := n } }, none)
  | .setStore s => ({ cs with st := some s }, none)

/-- The configuration part of an option closure (the error, always `nil`,
is discarded by `parseOptions`). -/
def applyOption (o : Opt H S) (cs : Csrf H S) : Csrf H S :=
  (applyOptionE o cs).1

/-- The Go zero value of the settings struct, as it stands right after
`cs := &csrf{h: h}` in `parseOptions`. -/
def zeroOptions : CsrfOptions H :=
  { MaxAge := 0, Domain := "", Path := "", Secure := false, HttpOnly := false,
    ErrorHandler := none, RequestHeader := "", FieldName := "", CookieName := "" }

/-- The `for _, option := range opts` loop of `parseOptions`: each option is
run in order and its returned error is ignored. -/
def applyAll (opts : List (Opt H S)) (cs : Csrf H S) : Csrf H S :=
  match opts with
  | [] => cs
  | o :: rest => applyAll rest (applyOptionE o cs).1

/-- `parseOptions` from `options.go`: build the zero-valued record around the
handler, set `Secure` and `HttpOnly` to `true`, then run the options in
order. -/
def parseOptions (h : H) (opts : List (Opt H S)) : Csrf H S :=
  let cs0 : Csrf H S := { h := h, st := none, opts := zeroOptions }
  let cs1 : Csrf H S := { cs0 with opts := { cs0.opts with Secure := true } }
  let cs2 : Csrf H S := { cs1 with opts := { cs1.opts with HttpOnly := true } }
  applyAll opts cs2

/-- The record built by `parseOptions` before any option runs (the spec's
default-valued struct). -/
def defaultCsrf (h : H) : Csrf H S :=
  { h := h, st := none,
    opts := { MaxAge := 0, Domain := "", Path := "", Secure := true, HttpOnly := true,
              ErrorHandler := none, RequestHeader := "", FieldName := "", CookieName := "" } }

/-- Names for the mutable slots of a `csrf` value: the nine settings fields,
the store, and the wrapped handler. -/
inductive SettingsField where
  | maxAge | domain | path | secure | httpOnly | errorHandler
  | requestHeader | fieldName | cookieName | storeField | handlerField
  deriving DecidableEq

/-- The values those slots can hold, tagged by kind. -/
inductive FieldVal (H S : Type) where
  | ofInt (n : Int)
  | ofStr (s : String)
  | ofBool (b : Bool)
  | ofErrH (h : Option H)
  | ofStore (s : Option S)
  | ofHandler (h : H)
  deriving DecidableEq

/-- The slot an option writes. -/
def fieldOf : Opt H S → SettingsField
  | .MaxAge _ => .maxAge
  | .Domain _ => .domain
  | .Path _ => .path
  | .Secure _ => .secure
  | .HttpOnly _ => .httpOnly
  | .ErrorHandler _ => .errorHandler
  | .RequestHeader _ => .requestHeader
  | .FieldName _ => .fieldName
  | .CookieName _ => .cookieName
  | .setStore _ => .storeField

/-- The value an option writes into its slot. -/
def valOf : Opt H S → FieldVal H S
  | .MaxAge a => .ofInt a
  | .Domain d => .ofStr d
  | .Path p => .ofStr p
  | .Secure s => .ofBool s
  | .HttpOnly hb => .ofBool hb
  | .ErrorHandler e => .ofErrH (some e)
  | .RequestHeader hd => .ofStr hd
  | .FieldName n => .ofStr n
  | .CookieName n => .ofStr n
  | .setStore s => .ofStore (some s)

/-- Reading a slot of a `csrf` value. -/
def readField (f : SettingsField) (cs : Csrf H S) : FieldVal H S :=
  match f with
  | .maxAge => .ofInt cs.opts.MaxAge
  | .domain => .ofStr cs.opts.Domain
  | .path => .ofStr cs.opts.Path
  | .secure => .ofBool cs.opts.Secure
  | .httpOnly => .ofBool cs.opts.HttpOnly
  | .errorHandler => .ofErrH cs.opts.ErrorHandler
  | .requestHeader => .ofStr cs.opts.RequestHeader
  | .fieldName => .ofStr cs.opts.FieldName
  | .cookieName => .ofStr cs.opts.CookieName
  | .storeField => .ofStore cs.st
  | .handlerField => .ofHandler cs.h

/-- Whether an option is one of the nine exported option functions
(`setStore` is package private). -/
def isExported : Opt H S → Bool
  | .setStore _ => false
  | _ => true

lemma readField_applyOption_self (o : Opt H S) (cs : Csrf H S) :
    readField (fieldOf o) (applyOption o cs) = valOf o := by
  cases o <;> rfl

lemma readField_applyOption_other (o : Opt H S) (cs : Csrf H S) (f : SettingsField)
    (hf : f ≠ fieldOf o) :
    readField f (applyOption o cs) = readField f cs := by
  cases o <;> cases f <;> first
    | rfl
    | exact absurd rfl hf

lemma applyAll_append (l₁ l₂ : List (Opt H S)) (cs : Csrf H S) :
    applyAll (l₁ ++ l₂) cs = applyAll l₂ (applyAll l₁ cs) := by
  induction l₁ generalizing cs with
  | nil => rfl
  | cons o rest ih => simpa [applyAll] using ih _

lemma readField_applyAll_untouched (l : List (Opt H S)) (cs : Csrf H S)
    (f : SettingsField) (hl : ∀ o ∈ l, fieldOf o ≠ f) :
    readField f (applyAll l cs) = readField f cs := by
  induction l generalizing cs with
  | nil => rfl
  | cons o rest ih =>
    have ho : fieldOf o ≠ f := hl o (List.mem_cons_self o rest)
    have hrest : ∀ o' ∈ rest, fieldOf o' ≠ f := fun o' h => hl o' (List.mem_cons_of_mem o h)
    calc readField f (applyAll (o :: rest) cs)
        = readField f (applyAll rest (applyOption o cs)) := rfl
      _ = readField f (applyOption o cs) := ih _ hrest
      _ = readField f cs := readField_applyOption_other o cs f (Ne.symm ho)

lemma applyAll_h (l : List (Opt H S)) (cs : Csrf H S) :
    (applyAll l cs).h = cs.h := by
  induction l generalizing cs with
  | nil => rfl
  | cons o rest ih =>
    have : (applyOption o cs).h = cs.h := by cases o <;> rfl
    calc (applyAll (o :: rest) cs).h
        = (applyAll rest (applyOption o cs)).h := rfl
      _ = (applyOption o cs).h := ih _
      _ = cs.h := this

lemma applyOption_comm (o o' : Opt H S) (cs : Csrf H S)
    (hne : fieldOf o' ≠ fieldOf o) :
    applyOption o' (applyOption o cs) = applyOption o (applyOption o' cs) := by
  cases o <;> cases o' <;> first
    | rfl
    | exact absurd rfl hne

lemma applyAll_eq_foldl (l : List (Opt H S)) (cs : Csrf H S) :
    applyAll l cs = List.foldl (fun c o => (applyOptionE o c).1) cs l := by
  induction l generalizing cs with
  | nil => rfl
  | cons o rest ih => simpa [applyAll, List.foldl] using ih _

/-- A sample configuration value used to instantiate theorems at concrete
inputs. -/
def csNN : Csrf Nat Nat :=
  { h := 5, st := none, opts := zeroOptions }

/-- Claim C1 (counterexample): `parseOptions` applied to an empty option
list does not produce the documented default max-age 43200 nor the default
request header name `X-CSRF-Token`; those fields keep their Go zero
values. -/
theorem parseOptions_empty_cex :
    ¬ ((parseOptions (H := Nat) (S := Nat) 0 []).opts.MaxAge = 43200 ∧
       (parseOptions (H := Nat) (S := Nat) 0 []).opts.RequestHeader = "X-CSRF-Token") := by
  decide

/-- Claim C1 (amended): `parseOptions` with an empty option list produces a
settings record with `Secure = true` and `HttpOnly = true`, while every
other field keeps its zero value (`MaxAge = 0`, empty names, no error
handler, no store); the documented default names and max-age are not
applied by `parseOptions`. -/
theorem parseOptions_empty_defaults (h : H) :
    parseOptions (S := S) h [] =
      { h := h, st := none,
        opts := { MaxAge := 0, Domain := "", Path := "", Secure := true, HttpOnly := true,
                  ErrorHandler := none, RequestHeader := "", FieldName := "",
                  CookieName := "" } } := rfl

/-- Claim C2: options are applied in the order given, and for any option
`o` in the list such that no later option writes the same settings field,
the configuration returned by `parseOptions` carries the value written by
`o` — the later-applied option overrides all earlier ones on that field. -/
theorem parseOptions_last_write_wins (h : H) (l₁ l₂ : List (Opt H S)) (o : Opt H S)
    (hl : ∀ o' ∈ l₂, fieldOf o' ≠ fieldOf o) :
    readField (fieldOf o) (parseOptions h (l₁ ++ o :: l₂)) = valOf o := by
  have e : parseOptions h (l₁ ++ o :: l₂)
      = applyAll l₂ (applyOption o (applyAll l₁ (defaultCsrf h))) := by
    have e0 : parseOptions h (l₁ ++ o :: l₂)
        = applyAll (l₁ ++ o :: l₂) (defaultCsrf h) := rfl
    rw [e0, applyAll_append]
    rfl
  rw [e, readField_applyAll_untouched _ _ _ hl, readField_applyOption_self]

theorem parseOptions_last_write_wins_witness :
    (∀ o' ∈ ([Opt.Domain "d"] : List (Opt Nat Nat)),
       fieldOf o' ≠ fieldOf (Opt.MaxAge (H := Nat) (S := Nat) 2)) ∧
    readField (fieldOf (Opt.MaxAge (H := Nat) (S := Nat) 2))
      (parseOptions 0 (([Opt.MaxAge 1] : List (Opt Nat Nat)) ++ Opt.MaxAge 2 :: [Opt.Domain "d"]))
      = valOf (Opt.MaxAge (H := Nat) (S := Nat) 2) :=
  ⟨by decide,
   parseOptions_last_write_wins 0 [Opt.MaxAge 1] [Opt.Domain "d"] (Opt.MaxAge 2) (by decide)⟩

/-- Claim C3: each of the nine exported option functions, applied with any
argument value whatsoever, writes exactly the supplied value into its own
settings field — no validation, rejection, or normalization of the value
(the `ErrorHandler` argument, a non-nil Go interface value, is stored as
`some e`). -/
theorem exported_options_set_value (cs : Csrf H S) :
    (∀ a, (applyOption (.MaxAge a) cs).opts.MaxAge = a) ∧
    (∀ d, (applyOption (.Domain d) cs).opts.Domain = d) ∧
    (∀ p, (applyOption (.Path p) cs).opts.Path = p) ∧
    (∀ s, (applyOption (.Secure s) cs).opts.Secure = s) ∧
    (∀ hb, (applyOption (.HttpOnly hb) cs).opts.HttpOnly = hb) ∧
    (∀ e, (applyOption (.ErrorHandler e) cs).opts.ErrorHandler = some e) ∧
    (∀ hd, (applyOption (.RequestHeader hd) cs).opts.RequestHeader = hd) ∧
    (∀ n, (applyOption (.FieldName n) cs).opts.FieldName = n) ∧
    (∀ n, (applyOption (.CookieName n) cs).opts.CookieName = n) :=
  ⟨fun _ => rfl, fun _ => rfl, fun _ => rfl, fun _ => rfl, fun _ => rfl,
   fun _ => rfl, fun _ => rfl, fun _ => rfl, fun _ => rfl⟩

/-- Claim C4: every exported option modifies only its own named field: the
wrapped handler and the store are unchanged, every settings slot other than
the option's own is unchanged, and options writing distinct fields
commute. -/
theorem exported_options_frame (o o' : Opt H S) (cs : Csrf H S) (f : SettingsField)
    (he : isExported o = true) (hf : f ≠ fieldOf o) (ho' : fieldOf o' ≠ fieldOf o) :
    (applyOption o cs).h = cs.h ∧ (applyOption o cs).st = cs.st ∧
    readField f (applyOption o cs) = readField f cs ∧
    applyOption o' (applyOption o cs) = applyOption o (applyOption o' cs) := by
  refine ⟨?_, ?_, readField_applyOption_other o cs f hf, applyOption_comm o o' cs ho'⟩
  · cases o <;> rfl
  · cases o <;> first
      | rfl
      | simp [isExported] at he

theorem exported_options_frame_witness :
    isExported (Opt.MaxAge (H := Nat) (S := Nat) 7) = true ∧
    SettingsField.path ≠ fieldOf (Opt.MaxAge (H := Nat) (S := Nat) 7) ∧
    fieldOf (Opt.Domain (H := Nat) (S := Nat) "x") ≠ fieldOf (Opt.MaxAge (H := Nat) (S := Nat) 7) ∧
    ((applyOption (Opt.MaxAge 7) csNN).h = csNN.h ∧
     (applyOption (Opt.MaxAge 7) csNN).st = csNN.st ∧
     readField .path (applyOption (Opt.MaxAge 7) csNN) = readField .path csNN ∧
     applyOption (Opt.Domain "x") (applyOption (Opt.MaxAge 7) csNN)
       = applyOption (Opt.MaxAge 7) (applyOption (Opt.Domain "x") csNN)) :=
  ⟨by decide, by decide, by decide,
   exported_options_frame (Opt.MaxAge 7) (Opt.Domain "x") csNN .path
     (by decide) (by decide) (by decide)⟩

/-- Claim C7: configuration construction is pure and deterministic — the
result of `parseOptions` is exactly the left fold of the pure per-option
transformation over the default-valued record, and two runs on equal
arguments produce equal configurations. -/
theorem parseOptions_pure (h : H) (opts opts' : List (Opt H S)) (heq : opts = opts') :
    parseOptions h opts
      = List.foldl (fun c o => (applyOptionE o c).1) (defaultCsrf h) opts ∧
    parseOptions h opts = parseOptions h opts' := by
  subst heq
  refine ⟨?_, rfl⟩
  have e0 : parseOptions h opts = applyAll opts (defaultCsrf h) := rfl
  rw [e0, applyAll_eq_foldl]

theorem parseOptions_pure_witness :
    ([Opt.MaxAge 5] : List (Opt Nat Nat)) = [Opt.MaxAge 5] ∧
    (parseOptions 0 ([Opt.MaxAge 5] : List (Opt Nat Nat))
        = List.foldl (fun c o => (applyOptionE o c).1) (defaultCsrf 0) [Opt.MaxAge 5] ∧
     parseOptions 0 ([Opt.MaxAge 5] : List (Opt Nat Nat)) = parseOptions 0 [Opt.MaxAge 5]) :=
  ⟨rfl, parseOptions_pure 0 [Opt.MaxAge 5] [Opt.MaxAge 5] rfl⟩

/-- Claim C8: option application never fails — every exported option
returns the `nil` error on every input, and `parseOptions` ignores the
returned error and keeps applying options, so construction from any option
list always succeeds and extending the list by one option just applies that
option to the previous result. -/
theorem options_never_fail (o : Opt H S) (cs : Csrf H S) (h : H) (l : List (Opt H S))
    (he : isExported o = true) :
    (applyOptionE o cs).2 = none ∧
    parseOptions h (l ++ [o]) = applyOption o (parseOptions h l) := by
  constructor
  · cases o <;> rfl
  · have e0 : parseOptions h (l ++ [o]) = applyAll (l ++ [o]) (defaultCsrf h) := rfl
    rw [e0, applyAll_append]
    rfl

theorem options_never_fail_witness :
    isExported (Opt.CookieName (H := Nat) (S := Nat) "c") = true ∧
    ((applyOptionE (Opt.CookieName "c") csNN).2 = none ∧
     parseOptions 6 (([Opt.Secure false] : List (Opt Nat Nat)) ++ [Opt.CookieName "c"])
       = applyOption (Opt.CookieName "c") (parseOptions 6 [Opt.Secure false])) :=
  ⟨by decide, options_never_fail (Opt.CookieName "c") csNN 6 [Opt.Secure false] (by decide)⟩

/-- Claim C9: the wrapped handler is preserved by construction — for every
handler and option list the handler stored by `parseOptions` is the one
supplied, and the `ErrorHandler` option writes only the error-handler
settings field, never the wrapped handler. -/
theorem parseOptions_preserves_handler (h : H) (l : List (Opt H S)) (cs : Csrf H S) (e : H) :
    (parseOptions h l).h = h ∧
    (applyOption (.ErrorHandler e) cs).h = cs.h ∧
    (applyOption (.ErrorHandler e) cs).st = cs.st ∧
    (applyOption (.ErrorHandler e) cs).opts.ErrorHandler = some e := by
  refine ⟨?_, rfl, rfl, rfl⟩
  have e0 : parseOptions h l = applyAll l (defaultCsrf h) := rfl
  rw [e0, applyAll_h]
  rfl

/-- Claim C10: every exported option function is idempotent — applying the
same option with the same argument twice in succession yields the same
configuration as applying it once. -/
theorem options_idempotent (o : Opt H S) (cs : Csrf H S) (he : isExported o = true) :
    applyOption o (applyOption o cs) = applyOption o cs := by
  cases o <;> rfl

theorem options_idempotent_witness :
    isExported (Opt.Path (H := Nat) (S := Nat) "/a") = true ∧
    applyOption (Opt.Path "/a") (applyOption (Opt.Path "/a") csNN)
      = applyOption (Opt.Path "/a") csNN :=
  ⟨by decide, options_idempotent (Opt.Path "/a") csNN (by decide)⟩

/-- Modelled from the spec: the fixed raw-token length (32 bytes, spec §3
and §4.3); the Masking Engine is not part of `src/`. -/
def tokenLength : Nat := 32

/-- Modelled from the spec: `Mask` of the Masking Engine (spec §4.1), which
is not part of `src/`.  The fresh random byte sequence drawn from the
Random Source is passed as the explicit argument `mask`; the result is
`mask ++ (mask XOR raw)`. -/
def Mask (mask raw : List Nat) : List Nat :=
  mask ++ List.zipWith Nat.xor mask raw

/-- Modelled from the spec: `Unmask` of the Masking Engine (spec §4.1),
which is not part of `src/`.  Returns `(raw, ok)`: `ok = false` when the
input length is not exactly `2 * tokenLength`, otherwise the XOR of the two
halves. -/
def Unmask (masked : List Nat) : List Nat × Bool :=
  if masked.length = 2 * tokenLength then
    (List.zipWith Nat.xor (masked.take tokenLength) (masked.drop tokenLength), true)
  else ([], false)

lemma zipWith_xor_cancel (a b : List Nat) (hab : a.length = b.length) :
    List.zipWith Nat.xor a (List.zipWith Nat.xor a b) = b := by
  induction a generalizing b with
  | nil =>
    cases b with
    | nil => rfl
    | cons y ys => simp at hab
  | cons x xs ih =>
    cases b with
    | nil => simp at hab
    | cons y ys =>
      have h1 : Nat.xor x (Nat.xor x y) = y := by
        show x ^^^ (x ^^^ y) = y
        rw [← Nat.xor_assoc, Nat.xor_self, Nat.zero_xor]
      simp only [List.zipWith, h1]
      rw [ih ys (by simpa using hab)]

/-- Claim C5: masking then unmasking is the identity — for every raw token
of the expected fixed length and every fresh mask of that length drawn by
`Mask`, `Unmask (Mask mask raw)` returns `raw` exactly, with `ok = true`. -/
theorem unmask_mask_roundtrip (mask raw : List Nat)
    (hm : mask.length = tokenLength) (hr : raw.length = tokenLength) :
    Unmask (Mask mask raw) = (raw, true) := by
  have hc : (List.zipWith Nat.xor mask raw).length = tokenLength := by
    simp [hm, hr]
  have hlen : (Mask mask raw).length = 2 * tokenLength := by
    simp only [Mask, List.length_append, hm, hc]
    omega
  have ht : (Mask mask raw).take tokenLength = mask := List.take_left' hm
  have hd : (Mask mask raw).drop tokenLength = List.zipWith Nat.xor mask raw :=
    List.drop_left' hm
  unfold Unmask
  rw [if_pos hlen, ht, hd, zipWith_xor_cancel mask raw (by rw [hm, hr])]

theorem unmask_mask_roundtrip_witness :
    (List.replicate 32 170).length = tokenLength ∧
    (List.replicate 32 85).length = tokenLength ∧
    Unmask (Mask (List.replicate 32 170) (List.replicate 32 85))
      = (List.replicate 32 85, true) :=
  ⟨by decide, by decide,
   unmask_mask_roundtrip (List.replicate 32 170) (List.replicate 32 85)
     (by decide) (by decide)⟩

/-- Rejection reasons of the Request Validator (spec §7). -/
inductive Reason where
  | NoToken
  | MalformedToken
  | TokenMismatch
  deriving DecidableEq

/-- Validation verdict (spec §3). -/
inductive Verdict where
  | Accepted
  | Rejected (r : Reason)
  deriving DecidableEq

/-- An inbound HTTP request as the token protocol sees it: its method, the
submitted token in the configured header or form field (if any), and the
value of the named cookie (if any). -/
structure Request where
  method : String
  headerToken : Option String
  fieldToken : Option String
  cookieValue : Option String
  deriving DecidableEq

/-- The safe-method set (spec §4.4 step 1, default). -/
def safeMethods : List String := ["GET", "HEAD", "OPTIONS", "TRACE"]

/-- Modelled from the spec: the Request Validator state machine (spec
§4.4), which is not part of `src/`.  The Token Codec decode is passed as
the parameter `decode`; `realToken` is the raw token obtained from the
Token Store for this request. -/
def validate (decode : String → Option (List Nat)) (realToken : List Nat)
    (req : Request) : Verdict :=
  if safeMethods.contains req.method then .Accepted
  else
    match (match req.headerToken with
           | some t => some t
           | none => req.fieldToken) with
    | none => .Rejected .NoToken
    | some s =>
      match decode s with
      | none => .Rejected .MalformedToken
      | some masked =>
        match Unmask masked with
        | (_, false) => .Rejected .MalformedToken
        | (raw, true) => if raw = realToken then .Accepted else .Rejected .TokenMismatch

/-- Observable outcome of one middleware pass over a request. -/
structure MwResult where
  verdict : Verdict
  handlerCalled : Bool
  errorHandlerCalled : Bool
  cookieSet : Bool
  deriving DecidableEq

/-- Modelled from the spec: the Middleware Core per-request flow (spec §4.3
policy and §4.5), which is not part of `src/`.  `Load` the raw token from
the cookie (a missing or undecodable cookie counts as absent), fall back to
the freshly minted token `mint` from the Random Source, run the Request
Validator, always set the response cookie, and call the wrapped handler
exactly on `Accepted` (the error handler otherwise). -/
def middleware (decode : String → Option (List Nat)) (mint : List Nat)
    (req : Request) : MwResult :=
  let stored : Option (List Nat) :=
    match req.cookieValue with
    | none => none
    | some c =>
      match decode c with
      | none => none
      | some masked =>
        match Unmask masked with
        | (_, false) => none
        | (raw, true) => some raw
  let real : List Nat :=
    match stored with
    | some r => r
    | none => mint
  let v := validate decode real req
  { verdict := v,
    handlerCalled := match v with | .Accepted => true | .Rejected _ => false,
    errorHandlerCalled := match v with | .Accepted => false | .Rejected _ => true,
    cookieSet := true }

/-- Claim C6: for every request whose method is in the safe set, the
Request Validator reaches `Accepted`, the wrapped handler is invoked and
the response receives a set cookie, without inspecting any submitted token
— the verdict is `Accepted` whatever the header token, field token and
cookie are, including when all are absent. -/
theorem safe_method_bypass (decode : String → Option (List Nat)) (mint : List Nat)
    (req : Request) (hs : safeMethods.contains req.method = true) :
    (middleware decode mint req).verdict = .Accepted ∧
    (middleware decode mint req).handlerCalled = true ∧
    (middleware decode mint req).cookieSet = true ∧
    ∀ t f c, (middleware decode mint
        { req with headerToken := t, fieldToken := f, cookieValue := c }).verdict
      = .Accepted := by
  have hm : req.method ∈ safeMethods := by simpa using hs
  refine ⟨?_, ?_, rfl, ?_⟩
  · simp [middleware, validate, hm]
  · simp [middleware, validate, hm]
  · intro t f c
    simp [middleware, validate, hm]

theorem safe_method_bypass_witness :
    safeMethods.contains "GET" = true ∧
    (middleware (fun _ => none) [] ⟨"GET", none, none, none⟩).verdict = .Accepted ∧
    (middleware (fun _ => none) [] ⟨"GET", none, none, none⟩).handlerCalled = true ∧
    (middleware (fun _ => none) [] ⟨"GET", none, none, none⟩).cookieSet = true ∧
    (middleware (fun _ => none) []
        { (⟨"GET", none, none, none⟩ : Request) with
            headerToken := some "x", fieldToken := none, cookieValue := some "y" }).verdict
      = .Accepted :=
  ⟨by decide,
   (safe_method_bypass (fun _ => none) [] ⟨"GET", none, none, none⟩ (by decide)).1,
   (safe_method_bypass (fun _ => none) [] ⟨"GET", none, none, none⟩ (by decide)).2.1,
   (safe_method_bypass (fun _ => none) [] ⟨"GET", none, none, none⟩ (by decide)).2.2.1,
   (safe_method_bypass (fun _ => none) [] ⟨"GET", none, none, none⟩ (by decide)).2.2.2
     (some "x") none (some "y")⟩

end CtxCsrf
